import Mathlib

/-!
# Verification of the ephemeral scratchpad/todo session store

Shallow embedding of `src/storage/InMemorySessionStore.ts`, the associated
type declarations (`src/storage/types.ts`), and the TONL encoder
(`src/utils/tonl.ts`).

Modelling conventions:
* JavaScript timestamps (`Date.now()`, `Date#getTime()`) are integers of
  milliseconds, modelled as `Int`.
* `Map<string, Session>` is modelled as an insertion-ordered association
  list `List (String × Session)`; JS `Map` guarantees key uniqueness, which
  is carried as an explicit `WF` (nodup-keys) hypothesis where needed.
* `nanoid(...)` draws from a random source; it is modelled as an arbitrary
  stream `draw : Nat → String` of candidate ids, indexed by draw number.
* A thrown exception is modelled with `Except`; an operation that mutates
  the store returns the (possibly changed) map alongside its result, so
  that side effects (lazy eviction) are visible even on the error path.
* `ttlMs` is `ttlHours * 60 * 60 * 1000` from the configuration; the
  embedding is parametrized directly by the millisecond value.
-/

/-- `TodoStatus` from `src/storage/types.ts`: `"pending" | "done"`. -/
inductive TodoStatus where
  | pending
  | done
deriving DecidableEq, Repr

/-- `Todo` interface from `src/storage/types.ts`. `createdAt` is epoch ms. -/
structure Todo where
  id : String
  title : String
  description : String
  tags : List String
  status : TodoStatus
  createdAt : Int
deriving DecidableEq, Repr

/-- `Session` interface from `src/storage/types.ts`.
`userId` is the optional owner token; timestamps are epoch ms. -/
structure Session where
  id : String
  userId : Option String
  scratchpad : String
  todos : List Todo
  createdAt : Int
  lastModified : Int
deriving DecidableEq, Repr

/-- `InMemorySessionStoreConfig` after constructor defaulting:
`ttlMs = ttlHours * 60 * 60 * 1000`, `cleanupIntervalMs`, `nanoidLength`. -/
structure StoreConfig where
  ttlMs : Int
  cleanupIntervalMs : Int
  nanoidLength : Nat
deriving DecidableEq, Repr

/-- The error taxonomy of the store (`SessionNotFoundError`,
`UserIdMismatchError` from `src/storage/types.ts`, and the generic
`Error` thrown by `generateUniqueId`, which the spec calls
`IdGenerationExhausted`). -/
inductive StoreError where
  | sessionNotFound (sessionId : String)
  | userIdMismatch (sessionId : String)
  | idGenerationExhausted
deriving DecidableEq, Repr

/-- The `sessions : Map<string, Session>` field, as an insertion-ordered
association list. -/
abbrev StoreMap := List (String × Session)

/-- `Map#get`: the value at the first (with well-formedness: only) entry
whose key matches. -/
def mapGet (m : StoreMap) (k : String) : Option Session :=
  match m.find? (fun p => p.1 == k) with
  | some p => some p.2
  | none => none

/-- `Map#set`: replace in place if the key is present, else append. -/
def mapSet (m : StoreMap) (k : String) (v : Session) : StoreMap :=
  match m with
  | [] => [(k, v)]
  | (k', v') :: rest =>
      if k' == k then (k, v) :: rest else (k', v') :: mapSet rest k v

/-- `Map#delete`: remove the entry with the key (the first, which under
well-formedness is the only one). -/
def mapDelete (m : StoreMap) (k : String) : StoreMap :=
  match m with
  | [] => []
  | (k', v') :: rest =>
      if k' == k then rest else (k', v') :: mapDelete rest k

/-- Well-formedness carried by a JS `Map`: keys are pairwise distinct. -/
def StoreMap.WF (m : StoreMap) : Prop :=
  (m.map Prod.fst).Nodup

/-- `InMemorySessionStore.isExpired`: `now - session.lastModified.getTime()
> this.ttlMs`. -/
def isExpired (cfg : StoreConfig) (now : Int) (s : Session) : Bool :=
  now - s.lastModified > cfg.ttlMs

/-- `InMemorySessionStore.validateUserId`, as the predicate "does not
throw": if the session has a bound `userId`, the caller must supply exactly
that id; otherwise any request is allowed. -/
def validateUserIdOk (s : Session) (userId : Option String) : Bool :=
  match s.userId with
  | none => true
  | some owner =>
      match userId with
      | none => false
      | some u => owner == u

/-- `InMemorySessionStore.exists`: lookup with lazy eviction of an expired
record and no identity check. Returns the boolean and the map after the
possible eviction. -/
def existsOp (cfg : StoreConfig) (now : Int) (m : StoreMap) (k : String) :
    Bool × StoreMap :=
  match mapGet m k with
  | none => (false, m)
  | some s =>
      if isExpired cfg now s then (false, mapDelete m k) else (true, m)

/-- `InMemorySessionStore.get`: lookup, lazy eviction of an expired record
(returning `null`, modelled `none`), then user-id validation (which may
throw `UserIdMismatchError`). -/
def getOp (cfg : StoreConfig) (now : Int) (m : StoreMap) (sessionId : String)
    (userId : Option String) : Except StoreError (Option Session) × StoreMap :=
  match mapGet m sessionId with
  | none => (Except.ok none, m)
  | some s =>
      if isExpired cfg now s then
        (Except.ok none, mapDelete m sessionId)
      else if validateUserIdOk s userId then
        (Except.ok (some s), m)
      else
        (Except.error (StoreError.userIdMismatch s.id), m)

/-- The `updates` argument of `update`:
`Partial<Omit<Session, "id" | "createdAt">>`. A field of a `Partial` is
either absent (`none`) or present with a value (`some _`); note that
`userId` and `lastModified` are fields of this type, since only `id` and
`createdAt` are omitted. A present `userId` field carries `Option String`
(`some none` models an explicitly supplied `undefined`). -/
structure SessionUpdates where
  userId : Option (Option String)
  scratchpad : Option String
  todos : Option (List Todo)
  lastModified : Option Int
deriving DecidableEq, Repr

/-- The empty partial `{}`. -/
def SessionUpdates.empty : SessionUpdates :=
  ⟨none, none, none, none⟩

/-- The object spread `{...session, ...updates, lastModified: new Date()}`
in `InMemorySessionStore.update`: present fields of `updates` override the
session's, then `lastModified` is unconditionally refreshed to `now`. -/
def applyUpdates (s : Session) (u : SessionUpdates) (now : Int) : Session :=
  { id := s.id
    userId := u.userId.getD s.userId
    scratchpad := u.scratchpad.getD s.scratchpad
    todos := u.todos.getD s.todos
    createdAt := s.createdAt
    lastModified := now }

/-- `InMemorySessionStore.update`: `get` (with its eviction side effect and
possible `UserIdMismatchError`), `SessionNotFoundError` on `null`, else
merge and `set`. -/
def updateOp (cfg : StoreConfig) (now : Int) (m : StoreMap)
    (sessionId : String) (updates : SessionUpdates) (userId : Option String) :
    Except StoreError Unit × StoreMap :=
  match getOp cfg now m sessionId userId with
  | (Except.error e, m') => (Except.error e, m')
  | (Except.ok none, m') => (Except.error (StoreError.sessionNotFound sessionId), m')
  | (Except.ok (some s), m') =>
      (Except.ok (), mapSet m' sessionId (applyUpdates s updates now))

/-- `InMemorySessionStore.delete`: same checks as `update`; on success
removes the record. -/
def deleteOp (cfg : StoreConfig) (now : Int) (m : StoreMap)
    (sessionId : String) (userId : Option String) :
    Except StoreError Unit × StoreMap :=
  match getOp cfg now m sessionId userId with
  | (Except.error e, m') => (Except.error e, m')
  | (Except.ok none, m') => (Except.error (StoreError.sessionNotFound sessionId), m')
  | (Except.ok (some _), m') => (Except.ok (), mapDelete m' sessionId)

/-- `InMemorySessionStore.count`: `this.sessions.size` (the raw map size);
the map is returned unchanged to make the absence of side effects explicit. -/
def countOp (m : StoreMap) : Nat × StoreMap :=
  (m.length, m)

/-- `InMemorySessionStore.cleanup`: iterate over all entries, delete every
expired one, count deletions. (The source loop deletes during iteration of
the JS `Map`, whose iterator tolerates deletion of the current entry; the
net effect is this fold.) -/
def cleanupOp (cfg : StoreConfig) (now : Int) : StoreMap → Nat × StoreMap
  | [] => (0, [])
  | (k, s) :: rest =>
      let (n, m') := cleanupOp cfg now rest
      if isExpired cfg now s then (n + 1, m') else (n, (k, s) :: m')

/-- The loop of `InMemorySessionStore.generateUniqueId`. `attempts` is the
number of draws already made; each iteration draws `draw attempts`,
increments, throws when the incremented count exceeds `maxAttempts = 10`,
and otherwise redraws exactly when `exists` (with its eviction side effect)
reports a collision. -/
def generateUniqueIdAux (cfg : StoreConfig) (now : Int) (draw : Nat → String) :
    Nat → StoreMap → Except StoreError String × StoreMap
  | attempts, m =>
      let id := draw attempts
      if attempts + 1 > 10 then
        (Except.error StoreError.idGenerationExhausted, m)
      else
        match existsOp cfg now m id with
        | (true, m') => generateUniqueIdAux cfg now draw (attempts + 1) m'
        | (false, m') => (Except.ok id, m')
  termination_by attempts _ => 11 - attempts
  decreasing_by omega

/-- `InMemorySessionStore.create`: generate a unique id (collision-checked
against `exists`, which may evict expired records as it goes), then build
the fresh session and insert it. -/
def createOp (cfg : StoreConfig) (now : Int) (draw : Nat → String)
    (m : StoreMap) (userId : Option String) :
    Except StoreError Session × StoreMap :=
  match generateUniqueIdAux cfg now draw 0 m with
  | (Except.error e, m') => (Except.error e, m')
  | (Except.ok id, m') =>
      let s : Session :=
        { id := id
          userId := userId
          scratchpad := ""
          todos := []
          createdAt := now
          lastModified := now }
      (Except.ok s, mapSet m' id s)

/-!
## TONL encoder (`src/utils/tonl.ts`)

JS strings are modelled as `List Char` in this pure encoder, so that the
character-level escaping behaviour is directly visible.
-/

/-- One pass of `value.replace(/c/g, rep)` for a single-character pattern
`c` and replacement `rep`. -/
def replaceAll (c : Char) (rep : List Char) : List Char → List Char
  | [] => []
  | x :: xs =>
      if x = c then rep ++ replaceAll c rep xs else x :: replaceAll c rep xs

/-- `escapeValue` from `src/utils/tonl.ts`: four sequential global
replaces — backslash, tab, newline, pipe. -/
def escapeValue (value : List Char) : List Char :=
  replaceAll '|' ['\\', '|']
    (replaceAll '\n' ['\\', 'n']
      (replaceAll '\t' ['\\', 't']
        (replaceAll '\\' ['\\', '\\'] value)))

/-- Number of days `d` such that the ECMAScript time value `ms` falls on
day `d` (floor division, as in the ECMAScript `Day(t)` operation used by
`Date#toISOString`). -/
def msToDay (ms : Int) : Int :=
  Int.fdiv ms 86400000

/-- Civil date (year, month, day) of a day number counted from 1970-01-01
(the Gregorian calendar computation performed by `Date#toISOString`). -/
def civilFromDays (z0 : Int) : Int × Int × Int :=
  let z := z0 + 719468
  let era := Int.fdiv z 146097
  let doe := z - era * 146097
  let yoe := Int.fdiv (doe - Int.fdiv doe 1460 + Int.fdiv doe 36524 - Int.fdiv doe 146096) 365
  let y := yoe + era * 400
  let doy := doe - (365 * yoe + Int.fdiv yoe 4 - Int.fdiv yoe 100)
  let mp := Int.fdiv (5 * doy + 2) 153
  let d := doy - Int.fdiv (153 * mp + 2) 5 + 1
  let m := mp + (if mp < 10 then 3 else -9)
  (y + (if m ≤ 2 then 1 else 0), m, d)

/-- Decimal digits of a nonnegative integer, zero-padded on the left to
width `w`. -/
def padNum (w : Nat) (n : Int) : List Char :=
  let s := (Nat.repr n.toNat).data
  List.replicate (w - s.length) '0' ++ s

/-- `formatDate` from `src/utils/tonl.ts`:
`date.toISOString().split("T")[0]`, i.e. the `YYYY-MM-DD` date part of the
ECMAScript date-time string (years outside 0..9999 use the expanded
six-digit signed form). -/
def formatDate (ms : Int) : List Char :=
  let (y, mo, d) := civilFromDays (msToDay ms)
  let year :=
    if 0 ≤ y ∧ y ≤ 9999 then padNum 4 y
    else (if y < 0 then ['-'] else ['+']) ++ padNum 6 (if y < 0 then -y else y)
  year ++ '-' :: padNum 2 mo ++ '-' :: padNum 2 d

/-- `formatTags` from `src/utils/tonl.ts`: `[]` for the empty list, else
`[${tags.join(",")}]`. -/
def formatTags (tags : List String) : List Char :=
  if tags.length = 0 then "[]".data
  else '[' :: (List.intercalate ",".data (tags.map String.data)) ++ [']']

/-- `getTodoValues` from `src/utils/tonl.ts`, as the lookup function of the
produced map with the `?? ""` default applied. -/
def getTodoValues (todo : Todo) (col : String) : List Char :=
  if col = "id" then todo.id.data
  else if col = "title" then escapeValue todo.title.data
  else if col = "description" then escapeValue todo.description.data
  else if col = "status" then
    (match todo.status with
     | TodoStatus.pending => "pending".data
     | TodoStatus.done => "done".data)
  else if col = "tags" then formatTags todo.tags
  else if col = "createdAt" then formatDate todo.createdAt
  else []

/-- The column list of `encodeTodosToTonl`. -/
def tonlColumns : List String :=
  ["id", "title", "status", "tags", "createdAt"]

/-- `calculateColumnWidths` from `src/utils/tonl.ts`, per column: start
from the header width and take the maximum over all todos of the value
width. -/
def columnWidth (todos : List Todo) (col : String) : Nat :=
  todos.foldl (fun w t => max w (getTodoValues t col).length) col.length

/-- `value.padEnd(width)`: pad on the right with spaces. -/
def padEnd (s : List Char) (w : Nat) : List Char :=
  s ++ List.replicate (w - s.length) ' '

/-- `encodeTodosToTonl` from `src/utils/tonl.ts`: a fixed `[0]{...}` header
for the empty list; otherwise a `[count]{columns}` header line followed by
one padded data row per todo, columns joined by three spaces, lines joined
by newlines. -/
def encodeTodosToTonl (todos : List Todo) : List Char :=
  if todos.length = 0 then
    "[0]{id, title, status, tags, createdAt}".data
  else
    let header :=
      '[' :: (Nat.repr todos.length).data ++ "]\x7b".data ++
        List.intercalate ", ".data (tonlColumns.map String.data) ++ ['}']
    let rows := todos.map (fun todo =>
      List.intercalate "   ".data (tonlColumns.map (fun col =>
        padEnd (getTodoValues todo col) (columnWidth todos col))))
    List.intercalate "\n".data (header :: rows)

/-- `encodeTodoToTonl` from `src/utils/tonl.ts`: header line plus one
`field: value` line per field. -/
def encodeTodoToTonl (todo : Todo) : List Char :=
  List.intercalate "\n".data
    [ "{id, title, description, status, tags, createdAt}".data,
      "id: ".data ++ todo.id.data,
      "title: ".data ++ escapeValue todo.title.data,
      "description: ".data ++ escapeValue todo.description.data,
      "status: ".data ++
        (match todo.status with
         | TodoStatus.pending => "pending".data
         | TodoStatus.done => "done".data),
      "tags: ".data ++ formatTags todo.tags,
      "createdAt: ".data ++ formatDate todo.createdAt ]

/-- A decoder for `escapeValue`'s escape scheme: a backslash followed by
`t`, `n`, or any other character decodes to a tab, a newline, or that
character. Used to show the escaping is lossless. -/
def unescapeValue : List Char → List Char
  | [] => []
  | x :: xs =>
      if x = '\\' then
        match xs with
        | [] => ['\\']
        | y :: ys =>
            (if y = 't' then '\t' else if y = 'n' then '\n' else y) ::
              unescapeValue ys
      else x :: unescapeValue xs

/-!
## Auxiliary definitions for the specification statements
-/

/-- Equality of `Except` results is decidable, so concrete runs of the
store operations can be checked by evaluation. -/
instance {ε α : Type} [DecidableEq ε] [DecidableEq α] :
    DecidableEq (Except ε α) := fun a b =>
  match a, b with
  | Except.ok x, Except.ok y =>
      if h : x = y then Decidable.isTrue (by rw [h])
      else Decidable.isFalse (by intro hc; cases hc; exact h rfl)
  | Except.ok _, Except.error _ => Decidable.isFalse (by intro hc; cases hc)
  | Except.error _, Except.ok _ => Decidable.isFalse (by intro hc; cases hc)
  | Except.error x, Except.error y =>
      if h : x = y then Decidable.isTrue (by rw [h])
      else Decidable.isFalse (by intro hc; cases hc; exact h rfl)

/-- A live (non-expired) record is stored under key `k`: what the spec
calls a "live session". -/
def liveExists (cfg : StoreConfig) (now : Int) (m : StoreMap) (k : String) :
    Prop :=
  ∃ s, mapGet m k = some s ∧ isExpired cfg now s = false

instance (cfg : StoreConfig) (now : Int) (m : StoreMap) (k : String) :
    Decidable (liveExists cfg now m k) :=
  match h : mapGet m k with
  | none =>
      Decidable.isFalse (by rintro ⟨s, hs, _⟩; rw [h] at hs; cases hs)
  | some s =>
      if he : isExpired cfg now s = false then
        Decidable.isTrue ⟨s, h, he⟩
      else
        Decidable.isFalse (by
          rintro ⟨s', hs', he'⟩
          rw [h] at hs'
          cases hs'
          exact he he')

/-- Key-uniqueness of a concrete store is checkable by evaluation. -/
instance (m : StoreMap) : Decidable (StoreMap.WF m) := by
  unfold StoreMap.WF
  infer_instance

/-- The per-character effect of the four sequential replaces of
`escapeValue` (proved equal to it below). -/
def escCharModel (c : Char) : List Char :=
  if c = '\\' then ['\\', '\\']
  else if c = '\t' then ['\\', 't']
  else if c = '\n' then ['\\', 'n']
  else if c = '|' then ['\\', '|']
  else [c]

/-!
## Concrete fixtures

Small concrete stores used by the witness and counterexample theorems.
The configuration has `ttlMs = 100`.
-/

/-- A configuration with a 100ms TTL. -/
def cfgW : StoreConfig := ⟨100, 3600000, 21⟩

/-- A session with no bound owner, last touched at time 0. -/
def sNoOwner : Session := ⟨"a", none, "", [], 0, 0⟩

/-- A session owned by `"u1"`, last touched at time 0. -/
def sOwned : Session := ⟨"b", some "u1", "notes", [], 0, 0⟩

/-- A two-session store: `"a"` unowned, `"b"` owned by `"u1"`. -/
def mW : StoreMap := [("a", sNoOwner), ("b", sOwned)]

/-- A draw stream that always returns `"a"` (colliding with `mW`). -/
def drawColl : Nat → String := fun _ => "a"

/-- A draw stream whose first three candidates collide with `mW` and whose
fourth is fresh. -/
def drawFresh : Nat → String := fun i => if i < 3 then "a" else "fresh"

/-- The session that `create` builds at time 50 with owner `"u9"` when the
draw stream yields `"fresh"`. -/
def sFresh : Session := ⟨"fresh", some "u9", "", [], 50, 50⟩

/-- A todo whose title contains a tab, a newline, a pipe and a backslash. -/
def todoW : Todo :=
  ⟨"t1", "Do\tthis\nnow|or\\never", "", ["x"], TodoStatus.pending, 0⟩

/-!
## Association-list lemmas

These describe `mapGet`/`mapSet`/`mapDelete`/`List.filter` interaction,
under the key-uniqueness invariant a JS `Map` maintains.
-/


theorem mapGet_cons (k' : String) (v : Session) (m : StoreMap) (k : String) :
    mapGet ((k', v) :: m) k = if k' = k then some v else mapGet m k := by
  by_cases h : k' = k
  · simp [mapGet, List.find?, h]
  · have hb : (k' == k) = false := beq_eq_false_iff_ne.mpr h
    simp [mapGet, List.find?, hb, h]

theorem mapGet_eq_none_of_not_mem_keys {m : StoreMap} {k : String}
    (h : k ∉ m.map Prod.fst) : mapGet m k = none := by
  induction m with
  | nil => rfl
  | cons p rest ih =>
      obtain ⟨k1, v1⟩ := p
      simp only [List.map_cons, List.mem_cons] at h
      push_neg at h
      rw [mapGet_cons, if_neg (fun hk => h.1 hk.symm)]
      exact ih h.2

theorem mapGet_mapSet_self (m : StoreMap) (k : String) (v : Session) :
    mapGet (mapSet m k v) k = some v := by
  induction m with
  | nil => simp [mapSet, mapGet_cons]
  | cons p rest ih =>
      obtain ⟨k1, v1⟩ := p
      by_cases h : k1 = k
      · simp [mapSet, h, mapGet_cons]
      · simp only [mapSet, beq_iff_eq, if_neg h]
        rw [mapGet_cons, if_neg h]
        exact ih

theorem mapGet_mapSet_ne (m : StoreMap) (k : String) (v : Session)
    {k' : String} (h : k' ≠ k) : mapGet (mapSet m k v) k' = mapGet m k' := by
  induction m with
  | nil =>
      show mapGet [(k, v)] k' = mapGet [] k'
      rw [mapGet_cons, if_neg (fun hk => h hk.symm)]
  | cons p rest ih =>
      obtain ⟨k1, v1⟩ := p
      by_cases h1 : k1 = k
      · subst h1
        simp only [mapSet, beq_self_eq_true, if_pos]
        rw [mapGet_cons, mapGet_cons, if_neg (fun hk => h hk.symm),
          if_neg (fun hk => h hk.symm)]
      · simp only [mapSet, beq_iff_eq, if_neg h1]
        rw [mapGet_cons, mapGet_cons]
        by_cases h2 : k1 = k'
        · simp [h2]
        · rw [if_neg h2, if_neg h2]
          exact ih

theorem mapGet_mapDelete_ne (m : StoreMap) (k : String) {k' : String}
    (h : k' ≠ k) : mapGet (mapDelete m k) k' = mapGet m k' := by
  induction m with
  | nil => rfl
  | cons p rest ih =>
      obtain ⟨k1, v1⟩ := p
      by_cases h1 : k1 = k
      · subst h1
        simp only [mapDelete, beq_self_eq_true, if_pos]
        rw [mapGet_cons, if_neg (fun hk => h hk.symm)]
      · simp only [mapDelete, beq_iff_eq, if_neg h1]
        rw [mapGet_cons, mapGet_cons]
        by_cases h2 : k1 = k'
        · simp [h2]
        · rw [if_neg h2, if_neg h2]
          exact ih

theorem mapDelete_keys_subset (m : StoreMap) (k : String) :
    ∀ x, x ∈ (mapDelete m k).map Prod.fst → x ∈ m.map Prod.fst := by
  induction m with
  | nil => intro x hx; simp [mapDelete] at hx
  | cons p rest ih =>
      obtain ⟨k1, v1⟩ := p
      intro x hx
      by_cases h1 : k1 = k
      · simp only [mapDelete, beq_iff_eq, if_pos h1] at hx
        simp [hx]
      · simp only [mapDelete, beq_iff_eq, if_neg h1, List.map_cons,
          List.mem_cons] at hx
        rcases hx with hx | hx
        · simp [hx]
        · simp [ih x hx]

theorem mapGet_mapDelete_self {m : StoreMap} (hWF : m.WF) (k : String) :
    mapGet (mapDelete m k) k = none := by
  induction m with
  | nil => rfl
  | cons p rest ih =>
      obtain ⟨k1, v1⟩ := p
      rw [StoreMap.WF, List.map_cons, List.nodup_cons] at hWF
      by_cases h1 : k1 = k
      · subst h1
        simp only [mapDelete, beq_self_eq_true, if_pos]
        exact mapGet_eq_none_of_not_mem_keys hWF.1
      · simp only [mapDelete, beq_iff_eq, if_neg h1]
        rw [mapGet_cons, if_neg h1]
        exact ih hWF.2

theorem mapDelete_WF {m : StoreMap} (hWF : m.WF) (k : String) :
    StoreMap.WF (mapDelete m k) := by
  induction m with
  | nil => exact hWF
  | cons p rest ih =>
      obtain ⟨k1, v1⟩ := p
      rw [StoreMap.WF, List.map_cons, List.nodup_cons] at hWF
      by_cases h1 : k1 = k
      · simp only [mapDelete, beq_iff_eq, if_pos h1]
        exact hWF.2
      · simp only [mapDelete, beq_iff_eq, if_neg h1]
        rw [StoreMap.WF, List.map_cons, List.nodup_cons]
        exact ⟨fun hx => hWF.1 (mapDelete_keys_subset rest k k1 hx), ih hWF.2⟩

theorem mapSet_keys_subset (m : StoreMap) (k : String) (v : Session) :
    ∀ x, x ∈ (mapSet m k v).map Prod.fst →
      x = k ∨ x ∈ m.map Prod.fst := by
  induction m with
  | nil =>
      intro x hx
      simp only [mapSet, List.map_cons, List.map_nil,
        List.mem_singleton] at hx
      exact Or.inl hx
  | cons p rest ih =>
      obtain ⟨k1, v1⟩ := p
      intro x hx
      by_cases h1 : k1 = k
      · simp only [mapSet, beq_iff_eq, if_pos h1, List.map_cons,
          List.mem_cons] at hx
        rcases hx with hx | hx
        · exact Or.inl hx
        · exact Or.inr (by simp [hx])
      · simp only [mapSet, beq_iff_eq, if_neg h1, List.map_cons,
          List.mem_cons] at hx
        rcases hx with hx | hx
        · exact Or.inr (by simp [hx])
        · rcases ih x hx with h | h
          · exact Or.inl h
          · exact Or.inr (by simp [h])

theorem mapSet_WF {m : StoreMap} (hWF : m.WF) (k : String) (v : Session) :
    StoreMap.WF (mapSet m k v) := by
  induction m with
  | nil => simp [mapSet, StoreMap.WF]
  | cons p rest ih =>
      obtain ⟨k1, v1⟩ := p
      rw [StoreMap.WF, List.map_cons, List.nodup_cons] at hWF
      by_cases h1 : k1 = k
      · subst h1
        simp only [mapSet, beq_self_eq_true, if_pos]
        rw [StoreMap.WF, List.map_cons, List.nodup_cons]
        exact ⟨hWF.1, hWF.2⟩
      · simp only [mapSet, beq_iff_eq, if_neg h1]
        rw [StoreMap.WF, List.map_cons, List.nodup_cons]
        refine ⟨fun hx => ?_, ih hWF.2⟩
        rcases mapSet_keys_subset rest k v k1 hx with h | h
        · exact h1 h
        · exact hWF.1 h

theorem filter_keys_subset (m : StoreMap) (q : String × Session → Bool) :
    ∀ x, x ∈ (m.filter q).map Prod.fst → x ∈ m.map Prod.fst := by
  intro x hx
  rcases List.mem_map.mp hx with ⟨p, hp, hpx⟩
  exact List.mem_map.mpr ⟨p, (List.mem_filter.mp hp).1, hpx⟩

theorem filter_WF {m : StoreMap} (hWF : m.WF) (q : String × Session → Bool) :
    StoreMap.WF (m.filter q) := by
  induction m with
  | nil => exact hWF
  | cons p rest ih =>
      obtain ⟨k1, v1⟩ := p
      rw [StoreMap.WF, List.map_cons, List.nodup_cons] at hWF
      by_cases hq : q (k1, v1) = true
      · rw [List.filter_cons_of_pos hq, StoreMap.WF, List.map_cons,
          List.nodup_cons]
        exact ⟨fun hx => hWF.1 (filter_keys_subset rest q k1 hx), ih hWF.2⟩
      · rw [List.filter_cons_of_neg (by simpa using hq)]
        exact ih hWF.2

theorem mapGet_filter {m : StoreMap} (hWF : m.WF)
    (q : String × Session → Bool) (k : String) (s : Session) :
    mapGet (m.filter q) k = some s ↔
      mapGet m k = some s ∧ q (k, s) = true := by
  induction m with
  | nil => simp [mapGet]
  | cons p rest ih =>
      obtain ⟨k1, v1⟩ := p
      rw [StoreMap.WF, List.map_cons, List.nodup_cons] at hWF
      by_cases hq : q (k1, v1) = true
      · rw [List.filter_cons_of_pos hq, mapGet_cons, mapGet_cons]
        by_cases h1 : k1 = k
        · subst h1
          simp only [if_pos rfl]
          constructor
          · rintro h; cases h; exact ⟨rfl, hq⟩
          · rintro ⟨h, _⟩; exact h
        · rw [if_neg h1, if_neg h1]
          exact ih hWF.2
      · rw [List.filter_cons_of_neg (by simpa using hq), mapGet_cons]
        by_cases h1 : k1 = k
        · subst h1
          rw [if_pos rfl]
          constructor
          · intro h
            have hnk : k1 ∉ (rest.filter q).map Prod.fst :=
              fun hx => hWF.1 (filter_keys_subset rest q k1 hx)
            rw [mapGet_eq_none_of_not_mem_keys hnk] at h
            cases h
          · rintro ⟨h, hqs⟩
            cases h
            exact absurd hqs (by simpa using hq)
        · rw [if_neg h1]
          exact ih hWF.2

theorem cleanupOp_eq (cfg : StoreConfig) (now : Int) (m : StoreMap) :
    cleanupOp cfg now m =
      ((m.filter (fun p => isExpired cfg now p.2)).length,
        m.filter (fun p => !isExpired cfg now p.2)) := by
  induction m with
  | nil => rfl
  | cons p rest ih =>
      obtain ⟨k1, v1⟩ := p
      by_cases he : isExpired cfg now v1
      · simp [cleanupOp, ih, he]
      · simp [cleanupOp, ih, (by simpa using he : isExpired cfg now v1 = false)]

/-!
## Liveness and lazy-eviction lemmas
-/

theorem existsOp_fst (cfg : StoreConfig) (now : Int) (m : StoreMap)
    (k : String) :
    (existsOp cfg now m k).1 = true ↔ liveExists cfg now m k := by
  unfold existsOp liveExists
  match h : mapGet m k with
  | none =>
      simp only []
      constructor
      · intro hc; cases hc
      · rintro ⟨s, hs, _⟩; cases hs
  | some s =>
      by_cases he : isExpired cfg now s
      · simp only [if_pos he]
        constructor
        · intro hc; cases hc
        · rintro ⟨s', hs', he'⟩
          cases hs'
          rw [he] at he'
          cases he'
      · simp only [if_neg he]
        exact ⟨fun _ => ⟨s, rfl, by simpa using he⟩, fun _ => trivial⟩

theorem existsOp_snd_liveExists {m : StoreMap} (hWF : m.WF)
    (cfg : StoreConfig) (now : Int) (k : String) (k' : String) :
    liveExists cfg now (existsOp cfg now m k).2 k' ↔
      liveExists cfg now m k' := by
  unfold existsOp
  match h : mapGet m k with
  | none => rfl
  | some s =>
      by_cases he : isExpired cfg now s
      · simp only [if_pos he]
        by_cases hk : k' = k
        · subst hk
          unfold liveExists
          rw [mapGet_mapDelete_self hWF, h]
          constructor
          · rintro ⟨s', hs', _⟩; cases hs'
          · rintro ⟨s', hs', he'⟩
            cases hs'
            rw [he] at he'
            cases he'
        · unfold liveExists
          rw [mapGet_mapDelete_ne m k hk]
      · simp only [if_neg he]

theorem existsOp_snd_WF {m : StoreMap} (hWF : m.WF) (cfg : StoreConfig)
    (now : Int) (k : String) : StoreMap.WF (existsOp cfg now m k).2 := by
  unfold existsOp
  match h : mapGet m k with
  | none => exact hWF
  | some s =>
      by_cases he : isExpired cfg now s
      · simp only [if_pos he]
        exact mapDelete_WF hWF k
      · simp only [if_neg he]
        exact hWF

theorem genAux_spec (cfg : StoreConfig) (now : Int) (draw : Nat → String) :
    ∀ (n a : Nat) (m : StoreMap), a + n = 10 → StoreMap.WF m →
      StoreMap.WF (generateUniqueIdAux cfg now draw a m).2 ∧
      (∀ k, liveExists cfg now (generateUniqueIdAux cfg now draw a m).2 k ↔
        liveExists cfg now m k) ∧
      (∀ e, (generateUniqueIdAux cfg now draw a m).1 = Except.error e →
        e = StoreError.idGenerationExhausted) ∧
      ((generateUniqueIdAux cfg now draw a m).1 =
          Except.error StoreError.idGenerationExhausted ↔
        ∀ i, a ≤ i → i < 10 → liveExists cfg now m (draw i)) ∧
      (∀ id, (generateUniqueIdAux cfg now draw a m).1 = Except.ok id →
        ∃ i, a ≤ i ∧ i < 10 ∧ id = draw i ∧
          ¬ liveExists cfg now m (draw i)) := by
  intro n
  induction n with
  | zero =>
      intro a m ha hWF
      have ha' : a = 10 := by omega
      subst ha'
      rw [generateUniqueIdAux, if_pos (by omega)]
      refine ⟨hWF, fun k => Iff.rfl, fun e he => by cases he; rfl, ?_, ?_⟩
      · constructor
        · intro _ i h1 h2
          omega
        · intro _
          rfl
      · intro id hid
        cases hid
  | succ n ih =>
      intro a m ha hWF
      rw [generateUniqueIdAux, if_neg (by omega)]
      rcases hE : existsOp cfg now m (draw a) with ⟨b, m'⟩
      have hWF' : StoreMap.WF m' := by
        have := existsOp_snd_WF hWF cfg now (draw a)
        rw [hE] at this
        exact this
      have hlive : ∀ k, liveExists cfg now m' k ↔ liveExists cfg now m k := by
        intro k
        have := existsOp_snd_liveExists hWF cfg now (draw a) k
        rw [hE] at this
        exact this
      cases b with
      | true =>
          have hcoll : liveExists cfg now m (draw a) := by
            have := (existsOp_fst cfg now m (draw a)).mp
            rw [hE] at this
            exact this rfl
          obtain ⟨iWF, ilive, ierr, iiff, iok⟩ :=
            ih (a + 1) m' (by omega) hWF'
          refine ⟨iWF, ?_, ierr, ?_, ?_⟩
          · intro k
            exact (ilive k).trans (hlive k)
          · rw [iiff]
            constructor
            · intro h i h1 h2
              rcases Nat.eq_or_lt_of_le h1 with h1 | h1
              · subst h1
                exact hcoll
              · exact (hlive (draw i)).mp (h i h1 h2)
            · intro h i h1 h2
              exact (hlive (draw i)).mpr (h i (by omega) h2)
          · intro id hid
            obtain ⟨i, h1, h2, h3, h4⟩ := iok id hid
            exact ⟨i, by omega, h2, h3, fun hl => h4 ((hlive (draw i)).mpr hl)⟩
      | false =>
          have hnocoll : ¬ liveExists cfg now m (draw a) := by
            intro hl
            have := (existsOp_fst cfg now m (draw a)).mpr hl
            rw [hE] at this
            cases this
          refine ⟨hWF', hlive, ?_, ?_, ?_⟩
          · intro e he
            cases he
          · constructor
            · intro h
              cases h
            · intro h
              exact absurd (h a (Nat.le_refl a) (by omega)) hnocoll
          · intro id hid
            cases hid
            exact ⟨a, Nat.le_refl a, by omega, rfl, hnocoll⟩

/-!
## TONL escaping lemmas
-/

theorem replaceAll_append (c : Char) (rep : List Char) (l1 l2 : List Char) :
    replaceAll c rep (l1 ++ l2) =
      replaceAll c rep l1 ++ replaceAll c rep l2 := by
  induction l1 with
  | nil => rfl
  | cons x xs ih =>
      by_cases hx : x = c
      · simp [replaceAll, hx, ih]
      · simp [replaceAll, hx, ih]

theorem escCharModel_spec (x : Char) :
    replaceAll '|' ['\\', '|']
      (replaceAll '\n' ['\\', 'n']
        (replaceAll '\t' ['\\', 't']
          (if x = '\\' then ['\\', '\\'] else [x]))) = escCharModel x := by
  by_cases h1 : x = '\\'
  · subst h1; decide
  by_cases h2 : x = '\t'
  · subst h2; decide
  by_cases h3 : x = '\n'
  · subst h3; decide
  by_cases h4 : x = '|'
  · subst h4; decide
  simp [replaceAll, escCharModel, h1, h2, h3, h4]

theorem escapeValue_cons (x : Char) (xs : List Char) :
    escapeValue (x :: xs) = escCharModel x ++ escapeValue xs := by
  unfold escapeValue
  have h0 : replaceAll '\\' ['\\', '\\'] (x :: xs) =
      (if x = '\\' then ['\\', '\\'] else [x]) ++
        replaceAll '\\' ['\\', '\\'] xs := by
    by_cases hx : x = '\\'
    · simp [replaceAll, hx]
    · simp [replaceAll, hx]
  rw [h0, replaceAll_append, replaceAll_append, replaceAll_append,
    escCharModel_spec]

theorem escapeValue_eq_flatMap (v : List Char) :
    escapeValue v = v.flatMap escCharModel := by
  induction v with
  | nil => rfl
  | cons x xs ih => rw [escapeValue_cons, List.flatMap_cons, ih]

theorem escCharModel_no_tab_no_newline (x : Char) :
    '\t' ∉ escCharModel x ∧ '\n' ∉ escCharModel x := by
  by_cases h1 : x = '\\'
  · subst h1; exact ⟨by decide, by decide⟩
  by_cases h2 : x = '\t'
  · subst h2; exact ⟨by decide, by decide⟩
  by_cases h3 : x = '\n'
  · subst h3; exact ⟨by decide, by decide⟩
  by_cases h4 : x = '|'
  · subst h4; exact ⟨by decide, by decide⟩
  constructor
  · simp only [escCharModel, if_neg h1, if_neg h2, if_neg h3, if_neg h4,
      List.mem_singleton]
    intro hc
    exact h2 hc.symm
  · simp only [escCharModel, if_neg h1, if_neg h2, if_neg h3, if_neg h4,
      List.mem_singleton]
    intro hc
    exact h3 hc.symm

theorem escapeValue_no_tab (v : List Char) : '\t' ∉ escapeValue v := by
  rw [escapeValue_eq_flatMap]
  intro h
  rcases List.mem_flatMap.mp h with ⟨x, _, hx⟩
  exact (escCharModel_no_tab_no_newline x).1 hx

theorem escapeValue_no_newline (v : List Char) : '\n' ∉ escapeValue v := by
  rw [escapeValue_eq_flatMap]
  intro h
  rcases List.mem_flatMap.mp h with ⟨x, _, hx⟩
  exact (escCharModel_no_tab_no_newline x).2 hx

theorem unescape_esc (y : Char) (ys : List Char) :
    unescapeValue ('\\' :: y :: ys) =
      (if y = 't' then '\t' else if y = 'n' then '\n' else y) ::
        unescapeValue ys := by
  rfl

theorem unescape_other (x : Char) (xs : List Char) (hx : x ≠ '\\') :
    unescapeValue (x :: xs) = x :: unescapeValue xs := by
  cases xs with
  | nil => simp [unescapeValue, hx]
  | cons y ys => simp [unescapeValue, hx]

theorem unescapeValue_escapeValue (v : List Char) :
    unescapeValue (escapeValue v) = v := by
  induction v with
  | nil => rfl
  | cons x xs ih =>
      rw [escapeValue_cons]
      by_cases h1 : x = '\\'
      · subst h1
        show unescapeValue ('\\' :: '\\' :: escapeValue xs) = '\\' :: xs
        rw [unescape_esc, ih, if_neg (by decide), if_neg (by decide)]
      by_cases h2 : x = '\t'
      · subst h2
        show unescapeValue ('\\' :: 't' :: escapeValue xs) = '\t' :: xs
        rw [unescape_esc, ih, if_pos rfl]
      by_cases h3 : x = '\n'
      · subst h3
        show unescapeValue ('\\' :: 'n' :: escapeValue xs) = '\n' :: xs
        rw [unescape_esc, ih, if_neg (by decide), if_pos rfl]
      by_cases h4 : x = '|'
      · subst h4
        show unescapeValue ('\\' :: '|' :: escapeValue xs) = '|' :: xs
        rw [unescape_esc, ih, if_neg (by decide), if_neg (by decide)]
      · have h0 : escCharModel x = [x] := by
          simp [escCharModel, h1, h2, h3, h4]
        rw [h0, List.singleton_append, unescape_other x _ h1, ih]

theorem mem_intercalate_of_mem_sep {c : Char} {sep : List Char}
    (hc : c ∈ sep) (a b : List Char) (l : List (List Char)) :
    c ∈ List.intercalate sep (a :: b :: l) := by
  rw [List.intercalate, List.intersperse_cons_cons]
  exact List.mem_join.mpr ⟨sep, by simp, hc⟩

theorem newline_not_mem_encode_empty : '\n' ∉ encodeTodosToTonl [] := by
  decide

theorem newline_mem_encode_nonempty (todos : List Todo) (h : todos ≠ []) :
    '\n' ∈ encodeTodosToTonl todos := by
  match todos with
  | [] => exact absurd rfl h
  | t :: ts =>
      rw [encodeTodosToTonl]
      rw [if_neg (by simp)]
      simp only [List.map_cons]
      exact mem_intercalate_of_mem_sep (by decide) _ _ _

/-!
## Further shared lemmas
-/

theorem mapGet_mapDelete_sub {m : StoreMap} (hWF : StoreMap.WF m)
    {k0 k : String} {s' : Session}
    (h : mapGet (mapDelete m k0) k = some s') : mapGet m k = some s' := by
  by_cases hk : k = k0
  · subst hk
    rw [mapGet_mapDelete_self hWF] at h
    cases h
  · rw [mapGet_mapDelete_ne m k0 hk] at h
    exact h

theorem length_filter_split (m : StoreMap) (q : String × Session → Bool) :
    m.length = (m.filter q).length + (m.filter (fun p => !q p)).length := by
  induction m with
  | nil => rfl
  | cons p rest ih =>
      by_cases hq : q p
      · rw [List.filter_cons_of_pos hq,
          List.filter_cons_of_neg (by simp [hq])]
        simp only [List.length_cons, ih]
        omega
      · rw [List.filter_cons_of_neg (by simpa using hq),
          List.filter_cons_of_pos (by simp [hq])]
        simp only [List.length_cons, ih]
        omega

/-!
## C1: TTL boundary and lazy/eager agreement
-/

/-- C1 counterexample: at age exactly equal to the TTL the record is still
returned by `get`, while the claim says it is not-found "at or beyond" the
TTL. With `ttlMs = 100`, a record last touched at time 0 read at time 100
(age = TTL) is returned. -/
theorem C1_counterexample :
    (100 : Int) - sNoOwner.lastModified = cfgW.ttlMs ∧
    (getOp cfgW 100 mW "a" none).1 = Except.ok (some sNoOwner) := by
  exact ⟨by decide, rfl⟩

/-- C1 (amended): `get` returns the record while `now - lastActivity ≤ TTL`
and returns not-found (evicting the record) when `now - lastActivity >
TTL`; the eager path removes the record in `cleanup` exactly under the same
strict age test, so the two paths never disagree. -/
theorem C1_ttl_boundary (cfg : StoreConfig) (now : Int) (m : StoreMap)
    (id : String) (s : Session) (hWF : StoreMap.WF m)
    (hm : mapGet m id = some s) (howner : s.userId = none) :
    (now - s.lastModified ≤ cfg.ttlMs →
      getOp cfg now m id none = (Except.ok (some s), m)) ∧
    (now - s.lastModified > cfg.ttlMs →
      getOp cfg now m id none = (Except.ok none, mapDelete m id)) ∧
    (mapGet (cleanupOp cfg now m).2 id = none ↔
      now - s.lastModified > cfg.ttlMs) := by
  refine ⟨?_, ?_, ?_⟩
  · intro h
    have he : isExpired cfg now s = false := by
      simp [isExpired]
      omega
    unfold getOp
    rw [hm]
    simp only [he, Bool.false_eq_true, if_false]
    have hv : validateUserIdOk s none = true := by
      unfold validateUserIdOk
      rw [howner]
    rw [if_pos hv]
  · intro h
    have he : isExpired cfg now s = true := by
      simp [isExpired]
      omega
    unfold getOp
    rw [hm]
    simp [he]
  · rw [cleanupOp_eq]
    simp only []
    constructor
    · intro hnone
      by_contra hc
      push_neg at hc
      have he : isExpired cfg now s = false := by
        simp [isExpired]
        omega
      have : mapGet (m.filter (fun p => !isExpired cfg now p.2)) id =
          some s := by
        rw [mapGet_filter hWF]
        exact ⟨hm, by rw [he]; rfl⟩
      rw [this] at hnone
      cases hnone
    · intro h
      have he : isExpired cfg now s = true := by
        simp [isExpired]
        omega
      cases hopt : mapGet (m.filter (fun p => !isExpired cfg now p.2)) id with
      | none => rfl
      | some s' =>
          have := (mapGet_filter hWF (fun p => !isExpired cfg now p.2)
            id s').mp hopt
          rw [hm] at this
          obtain ⟨hs, hq⟩ := this
          cases hs
          rw [he] at hq
          cases hq

/-- C1 witness: the amended boundary behaviour on a concrete store with
`ttlMs = 100`, at age 100 (still returned) and age 201 (evicted by both
paths). -/
theorem C1_ttl_boundary_witness :
    getOp cfgW 100 mW "a" none = (Except.ok (some sNoOwner), mW) ∧
    getOp cfgW 201 mW "a" none = (Except.ok none, mapDelete mW "a") ∧
    mapGet (cleanupOp cfgW 201 mW).2 "a" = none := by
  refine ⟨?_, ?_, ?_⟩
  · exact (C1_ttl_boundary cfgW 100 mW "a" sNoOwner (by decide) (by decide)
      (by decide)).1 (by decide)
  · exact (C1_ttl_boundary cfgW 201 mW "a" sNoOwner (by decide) (by decide)
      (by decide)).2.1 (by decide)
  · exact (C1_ttl_boundary cfgW 201 mW "a" sNoOwner (by decide) (by decide)
      (by decide)).2.2.mpr (by decide)

/-!
## C3: not-found behaviour for absent and expired ids
-/

/-- C3: for an id that is absent, `get` returns `null` leaving the store
unchanged, and `update`/`delete` raise `SessionNotFoundError`; for an id
whose record is expired, `get` returns `null` while evicting it, and
`update`/`delete` raise the very same `SessionNotFoundError` — the error
kind does not distinguish "expired" from "never existed". -/
theorem C3_not_found (cfg : StoreConfig) (now : Int) (m : StoreMap)
    (id : String) (caller : Option String) (updates : SessionUpdates) :
    (mapGet m id = none →
      getOp cfg now m id caller = (Except.ok none, m) ∧
      (updateOp cfg now m id updates caller).1 =
        Except.error (StoreError.sessionNotFound id) ∧
      (deleteOp cfg now m id caller).1 =
        Except.error (StoreError.sessionNotFound id)) ∧
    (∀ s, mapGet m id = some s → isExpired cfg now s = true →
      getOp cfg now m id caller = (Except.ok none, mapDelete m id) ∧
      (updateOp cfg now m id updates caller).1 =
        Except.error (StoreError.sessionNotFound id) ∧
      (deleteOp cfg now m id caller).1 =
        Except.error (StoreError.sessionNotFound id)) := by
  constructor
  · intro hm
    have hg : getOp cfg now m id caller = (Except.ok none, m) := by
      unfold getOp
      rw [hm]
    refine ⟨hg, ?_, ?_⟩
    · unfold updateOp
      rw [hg]
    · unfold deleteOp
      rw [hg]
  · intro s hm he
    have hg : getOp cfg now m id caller = (Except.ok none, mapDelete m id) := by
      unfold getOp
      rw [hm]
      simp [he]
    refine ⟨hg, ?_, ?_⟩
    · unfold updateOp
      rw [hg]
    · unfold deleteOp
      rw [hg]

/-- C3 witness: on the concrete store, an id that never existed and an id
whose record has expired produce the same observable outcomes. -/
theorem C3_not_found_witness :
    (getOp cfgW 50 mW "zzz" none = (Except.ok none, mW) ∧
      (updateOp cfgW 50 mW "zzz" SessionUpdates.empty none).1 =
        Except.error (StoreError.sessionNotFound "zzz")) ∧
    (getOp cfgW 201 mW "a" none = (Except.ok none, mapDelete mW "a") ∧
      (deleteOp cfgW 201 mW "a" none).1 =
        Except.error (StoreError.sessionNotFound "a")) := by
  constructor
  · have h := (C3_not_found cfgW 50 mW "zzz" none SessionUpdates.empty).1
      (by decide)
    exact ⟨h.1, h.2.1⟩
  · have h := (C3_not_found cfgW 201 mW "a" none SessionUpdates.empty).2
      sNoOwner (by decide) (by decide)
    exact ⟨h.1, h.2.2⟩

/-!
## C2: owner binding on get/update/delete
-/

/-- C2: for a live session with a bound owner, `get`, `update` and `delete`
raise `UserIdMismatchError` exactly when the caller identity is absent or
different, and succeed on an exact match; for a live session without an
owner, all three succeed for every caller identity, and `get` returns the
same stored record regardless of the identity supplied. -/
theorem C2_owner_binding (cfg : StoreConfig) (now : Int) (m : StoreMap)
    (id : String) (s : Session) (caller : Option String)
    (updates : SessionUpdates) (hm : mapGet m id = some s)
    (hlive : isExpired cfg now s = false) :
    (∀ owner, s.userId = some owner →
      (caller ≠ some owner →
        (getOp cfg now m id caller).1 =
          Except.error (StoreError.userIdMismatch s.id) ∧
        (updateOp cfg now m id updates caller).1 =
          Except.error (StoreError.userIdMismatch s.id) ∧
        (deleteOp cfg now m id caller).1 =
          Except.error (StoreError.userIdMismatch s.id)) ∧
      (caller = some owner →
        (getOp cfg now m id caller).1 = Except.ok (some s) ∧
        (updateOp cfg now m id updates caller).1 = Except.ok () ∧
        (deleteOp cfg now m id caller).1 = Except.ok ())) ∧
    (s.userId = none →
      (getOp cfg now m id caller).1 = Except.ok (some s) ∧
      (updateOp cfg now m id updates caller).1 = Except.ok () ∧
      (deleteOp cfg now m id caller).1 = Except.ok ()) := by
  constructor
  · intro owner howner
    constructor
    · intro hne
      have hv : validateUserIdOk s caller = false := by
        unfold validateUserIdOk
        rw [howner]
        cases caller with
        | none => rfl
        | some u =>
            have : owner ≠ u := fun h => hne (by rw [h])
            simp [this]
      have hg : getOp cfg now m id caller =
          (Except.error (StoreError.userIdMismatch s.id), m) := by
        unfold getOp
        rw [hm]
        simp [hlive, hv]
      refine ⟨by rw [hg], ?_, ?_⟩
      · unfold updateOp
        rw [hg]
      · unfold deleteOp
        rw [hg]
    · intro heq
      have hv : validateUserIdOk s caller = true := by
        unfold validateUserIdOk
        rw [howner, heq]
        simp
      have hg : getOp cfg now m id caller = (Except.ok (some s), m) := by
        unfold getOp
        rw [hm]
        simp [hlive, hv]
      refine ⟨by rw [hg], ?_, ?_⟩
      · unfold updateOp
        rw [hg]
      · unfold deleteOp
        rw [hg]
  · intro howner
    have hv : validateUserIdOk s caller = true := by
      unfold validateUserIdOk
      rw [howner]
    have hg : getOp cfg now m id caller = (Except.ok (some s), m) := by
      unfold getOp
      rw [hm]
      simp [hlive, hv]
    refine ⟨by rw [hg], ?_, ?_⟩
    · unfold updateOp
      rw [hg]
    · unfold deleteOp
      rw [hg]

/-- C2 witness: concrete owned and unowned sessions exercising both the
mismatch and the exact-match branches. -/
theorem C2_owner_binding_witness :
    (getOp cfgW 50 mW "b" none).1 =
      Except.error (StoreError.userIdMismatch "b") ∧
    (getOp cfgW 50 mW "b" (some "u2")).1 =
      Except.error (StoreError.userIdMismatch "b") ∧
    (getOp cfgW 50 mW "b" (some "u1")).1 = Except.ok (some sOwned) ∧
    (getOp cfgW 50 mW "a" (some "anything")).1 = Except.ok (some sNoOwner) ∧
    (getOp cfgW 50 mW "a" none).1 = Except.ok (some sNoOwner) := by
  refine ⟨?_, ?_, ?_, ?_, ?_⟩
  · exact ((C2_owner_binding cfgW 50 mW "b" sOwned none SessionUpdates.empty
      (by decide) (by decide)).1 "u1" (by decide)).1 (by decide) |>.1
  · exact ((C2_owner_binding cfgW 50 mW "b" sOwned (some "u2")
      SessionUpdates.empty (by decide) (by decide)).1 "u1" (by decide)).1
      (by decide) |>.1
  · exact ((C2_owner_binding cfgW 50 mW "b" sOwned (some "u1")
      SessionUpdates.empty (by decide) (by decide)).1 "u1" (by decide)).2
      (by decide) |>.1
  · exact ((C2_owner_binding cfgW 50 mW "a" sNoOwner (some "anything")
      SessionUpdates.empty (by decide) (by decide)).2 (by decide)).1
  · exact ((C2_owner_binding cfgW 50 mW "a" sNoOwner none
      SessionUpdates.empty (by decide) (by decide)).2 (by decide)).1

/-!
## C10: identity-mismatch errors leave the store unchanged
-/

/-- C10: whenever `get`, `update` or `delete` raises `UserIdMismatchError`,
the resulting store map is exactly the input map — no eviction, no merge,
no timestamp refresh, no removal. -/
theorem C10_mismatch_atomic (cfg : StoreConfig) (now : Int) (m : StoreMap)
    (id : String) (caller : Option String) (updates : SessionUpdates) :
    (∀ sid, (getOp cfg now m id caller).1 =
        Except.error (StoreError.userIdMismatch sid) →
      (getOp cfg now m id caller).2 = m) ∧
    (∀ sid, (updateOp cfg now m id updates caller).1 =
        Except.error (StoreError.userIdMismatch sid) →
      (updateOp cfg now m id updates caller).2 = m) ∧
    (∀ sid, (deleteOp cfg now m id caller).1 =
        Except.error (StoreError.userIdMismatch sid) →
      (deleteOp cfg now m id caller).2 = m) := by
  have hget : ∀ sid, (getOp cfg now m id caller).1 =
      Except.error (StoreError.userIdMismatch sid) →
      (getOp cfg now m id caller).2 = m := by
    intro sid h
    unfold getOp at h ⊢
    cases hm : mapGet m id with
    | none => rfl
    | some s =>
        rw [hm] at h
        by_cases he : isExpired cfg now s
        · simp [he] at h
        · by_cases hv : validateUserIdOk s caller
          · simp [he, hv] at h
          · simp [he, hv]
  refine ⟨hget, ?_, ?_⟩
  · intro sid h
    unfold updateOp at h ⊢
    cases hg : getOp cfg now m id caller with
    | mk r m2 =>
        cases r with
        | error e =>
            have h' : (Except.error e : Except StoreError Unit) =
                Except.error (StoreError.userIdMismatch sid) := by
              rw [hg] at h
              exact h
            cases h'
            show m2 = m
            have hm2 := hget sid (by rw [hg])
            rw [hg] at hm2
            exact hm2
        | ok o =>
            cases o with
            | none =>
                have h' : (Except.error (StoreError.sessionNotFound id) :
                    Except StoreError Unit) =
                    Except.error (StoreError.userIdMismatch sid) := by
                  rw [hg] at h
                  exact h
                simp at h'
            | some s =>
                have h' : (Except.ok () : Except StoreError Unit) =
                    Except.error (StoreError.userIdMismatch sid) := by
                  rw [hg] at h
                  exact h
                simp at h'
  · intro sid h
    unfold deleteOp at h ⊢
    cases hg : getOp cfg now m id caller with
    | mk r m2 =>
        cases r with
        | error e =>
            have h' : (Except.error e : Except StoreError Unit) =
                Except.error (StoreError.userIdMismatch sid) := by
              rw [hg] at h
              exact h
            cases h'
            show m2 = m
            have hm2 := hget sid (by rw [hg])
            rw [hg] at hm2
            exact hm2
        | ok o =>
            cases o with
            | none =>
                have h' : (Except.error (StoreError.sessionNotFound id) :
                    Except StoreError Unit) =
                    Except.error (StoreError.userIdMismatch sid) := by
                  rw [hg] at h
                  exact h
                simp at h'
            | some s =>
                have h' : (Except.ok () : Except StoreError Unit) =
                    Except.error (StoreError.userIdMismatch sid) := by
                  rw [hg] at h
                  exact h
                simp at h'

/-- C10 witness: a concrete mismatching access to the owned session leaves
the concrete store intact. -/
theorem C10_mismatch_atomic_witness :
    (getOp cfgW 50 mW "b" (some "u2")).2 = mW ∧
    (updateOp cfgW 50 mW "b" SessionUpdates.empty none).2 = mW ∧
    (deleteOp cfgW 50 mW "b" (some "u2")).2 = mW := by
  refine ⟨?_, ?_, ?_⟩
  · exact (C10_mismatch_atomic cfgW 50 mW "b" (some "u2")
      SessionUpdates.empty).1 "b" (by decide)
  · exact (C10_mismatch_atomic cfgW 50 mW "b" none
      SessionUpdates.empty).2.1 "b" (by decide)
  · exact (C10_mismatch_atomic cfgW 50 mW "b" (some "u2")
      SessionUpdates.empty).2.2 "b" (by decide)

/-!
## C7: update frame and read purity
-/

/-- C7: a successful `update` stores exactly the old record with the
supplied fields replaced and `lastModified` refreshed to now, leaving `id`,
`createdAt`, every unsupplied field, and every record under a different id
unchanged; and a successful `get` returns the stored record itself with no
change to the store — in particular it does not refresh `lastModified`. -/
theorem C7_update_frame (cfg : StoreConfig) (now : Int) (m : StoreMap)
    (id : String) (s : Session) (updates : SessionUpdates)
    (caller : Option String) (hm : mapGet m id = some s)
    (hlive : isExpired cfg now s = false)
    (hval : validateUserIdOk s caller = true) :
    getOp cfg now m id caller = (Except.ok (some s), m) ∧
    (updateOp cfg now m id updates caller).1 = Except.ok () ∧
    mapGet (updateOp cfg now m id updates caller).2 id =
      some (applyUpdates s updates now) ∧
    (applyUpdates s updates now).id = s.id ∧
    (applyUpdates s updates now).createdAt = s.createdAt ∧
    (applyUpdates s updates now).lastModified = now ∧
    (updates.scratchpad = none →
      (applyUpdates s updates now).scratchpad = s.scratchpad) ∧
    (updates.todos = none → (applyUpdates s updates now).todos = s.todos) ∧
    (updates.userId = none → (applyUpdates s updates now).userId = s.userId) ∧
    (∀ v, updates.scratchpad = some v →
      (applyUpdates s updates now).scratchpad = v) ∧
    (∀ v, updates.todos = some v → (applyUpdates s updates now).todos = v) ∧
    (∀ k, k ≠ id →
      mapGet (updateOp cfg now m id updates caller).2 k = mapGet m k) := by
  have hg : getOp cfg now m id caller = (Except.ok (some s), m) := by
    unfold getOp
    rw [hm]
    simp [hlive, hval]
  have hu : updateOp cfg now m id updates caller =
      (Except.ok (), mapSet m id (applyUpdates s updates now)) := by
    unfold updateOp
    rw [hg]
  refine ⟨hg, by rw [hu], ?_, rfl, rfl, rfl, ?_, ?_, ?_, ?_, ?_, ?_⟩
  · rw [hu]
    exact mapGet_mapSet_self m id (applyUpdates s updates now)
  · intro h
    simp [applyUpdates, h]
  · intro h
    simp [applyUpdates, h]
  · intro h
    simp [applyUpdates, h]
  · intro v h
    simp [applyUpdates, h]
  · intro v h
    simp [applyUpdates, h]
  · intro k hk
    rw [hu]
    exact mapGet_mapSet_ne m id (applyUpdates s updates now) hk

/-- C7 witness: a concrete successful update replaces the scratchpad,
refreshes `lastModified`, keeps `createdAt` and the todos, and leaves the
other record untouched; the preceding `get` returns the stored record with
the store unchanged. -/
theorem C7_update_frame_witness :
    getOp cfgW 50 mW "a" none = (Except.ok (some sNoOwner), mW) ∧
    mapGet (updateOp cfgW 50 mW "a" ⟨none, some "x", none, none⟩ none).2
      "a" = some (applyUpdates sNoOwner ⟨none, some "x", none, none⟩ 50) ∧
    (applyUpdates sNoOwner ⟨none, some "x", none, none⟩ 50).createdAt =
      sNoOwner.createdAt ∧
    (applyUpdates sNoOwner ⟨none, some "x", none, none⟩ 50).scratchpad =
      "x" ∧
    mapGet (updateOp cfgW 50 mW "a" ⟨none, some "x", none, none⟩ none).2
      "b" = mapGet mW "b" := by
  have h := C7_update_frame cfgW 50 mW "a" sNoOwner
    ⟨none, some "x", none, none⟩ none (by decide) (by decide) (by decide)
  exact ⟨h.1, h.2.2.1, h.2.2.2.2.1, h.2.2.2.2.2.2.2.2.2.1 "x" rfl,
    h.2.2.2.2.2.2.2.2.2.2.2 "b" (by decide)⟩

/-!
## C5: the owner binding is decided at creation
-/

/-- Exhaustive case analysis of `get`: absent, expired (evicted), live and
validated, or live with identity mismatch. -/
theorem getOp_spec (cfg : StoreConfig) (now : Int) (m : StoreMap)
    (id : String) (caller : Option String) :
    (mapGet m id = none ∧ getOp cfg now m id caller = (Except.ok none, m)) ∨
    (∃ s, mapGet m id = some s ∧ isExpired cfg now s = true ∧
      getOp cfg now m id caller = (Except.ok none, mapDelete m id)) ∨
    (∃ s, mapGet m id = some s ∧ isExpired cfg now s = false ∧
      validateUserIdOk s caller = true ∧
      getOp cfg now m id caller = (Except.ok (some s), m)) ∨
    (∃ s, mapGet m id = some s ∧ isExpired cfg now s = false ∧
      validateUserIdOk s caller = false ∧
      getOp cfg now m id caller =
        (Except.error (StoreError.userIdMismatch s.id), m)) := by
  cases hm : mapGet m id with
  | none =>
      left
      exact ⟨rfl, by unfold getOp; rw [hm]⟩
  | some s =>
      by_cases he : isExpired cfg now s
      · right; left
        exact ⟨s, rfl, he, by unfold getOp; rw [hm]; simp [he]⟩
      · by_cases hv : validateUserIdOk s caller
        · right; right; left
          exact ⟨s, rfl, by simpa using he, hv,
            by unfold getOp; rw [hm]; simp [he, hv]⟩
        · right; right; right
          exact ⟨s, rfl, by simpa using he, by simpa using hv,
            by unfold getOp; rw [hm]; simp [he, hv]⟩

/-- C5 counterexample: `update`'s accepted partial-fields type omits only
`id` and `createdAt`, so it accepts a `userId` field; supplying one rebinds
the owner. Here a session created without an owner acquires owner `"V"`
through a single update. -/
theorem C5_counterexample :
    mapGet mW "a" = some sNoOwner ∧ sNoOwner.userId = none ∧
    (updateOp cfgW 50 mW "a" ⟨some (some "V"), none, none, none⟩ none).1 =
      Except.ok () ∧
    mapGet (updateOp cfgW 50 mW "a"
        ⟨some (some "V"), none, none, none⟩ none).2 "a" =
      some (applyUpdates sNoOwner ⟨some (some "V"), none, none, none⟩ 50) ∧
    (applyUpdates sNoOwner ⟨some (some "V"), none, none, none⟩ 50).userId =
      some "V" := by
  exact ⟨rfl, rfl, rfl, rfl, rfl⟩

/-- C5 (amended): the owner binding is preserved by `get`, `delete`,
`exists`, `cleanup`, and by every `update` whose partial-fields argument
does not contain a `userId` field; only an `update` supplying a `userId`
field can rebind it. Every record surviving such an operation keeps the
owner it had before. -/
theorem C5_owner_stability (cfg : StoreConfig) (now : Int) (m : StoreMap)
    (id : String) (caller : Option String) (updates : SessionUpdates)
    (hWF : StoreMap.WF m) (hu : updates.userId = none) :
    (∀ k s', mapGet (getOp cfg now m id caller).2 k = some s' →
      ∃ s0, mapGet m k = some s0 ∧ s'.userId = s0.userId) ∧
    (∀ k s', mapGet (updateOp cfg now m id updates caller).2 k = some s' →
      ∃ s0, mapGet m k = some s0 ∧ s'.userId = s0.userId) ∧
    (∀ k s', mapGet (deleteOp cfg now m id caller).2 k = some s' →
      ∃ s0, mapGet m k = some s0 ∧ s'.userId = s0.userId) ∧
    (∀ k s', mapGet (existsOp cfg now m id).2 k = some s' →
      ∃ s0, mapGet m k = some s0 ∧ s'.userId = s0.userId) ∧
    (∀ k s', mapGet (cleanupOp cfg now m).2 k = some s' →
      ∃ s0, mapGet m k = some s0 ∧ s'.userId = s0.userId) := by
  have hsub : ∀ k0 k s', mapGet (mapDelete m k0) k = some s' →
      ∃ s0, mapGet m k = some s0 ∧ s'.userId = s0.userId := by
    intro k0 k s' h
    exact ⟨s', mapGet_mapDelete_sub hWF h, rfl⟩
  have hid : ∀ k s', mapGet m k = some s' →
      ∃ s0, mapGet m k = some s0 ∧ s'.userId = s0.userId := by
    intro k s' h
    exact ⟨s', h, rfl⟩
  have hget : ∀ k s', mapGet (getOp cfg now m id caller).2 k = some s' →
      ∃ s0, mapGet m k = some s0 ∧ s'.userId = s0.userId := by
    rcases getOp_spec cfg now m id caller with
      ⟨_, hg⟩ | ⟨s, _, _, hg⟩ | ⟨s, _, _, _, hg⟩ | ⟨s, _, _, _, hg⟩
    · rw [hg]; exact hid
    · rw [hg]; exact hsub id
    · rw [hg]; exact hid
    · rw [hg]; exact hid
  refine ⟨hget, ?_, ?_, ?_, ?_⟩
  · rcases getOp_spec cfg now m id caller with
      ⟨_, hg⟩ | ⟨s, _, _, hg⟩ | ⟨s, hms, _, _, hg⟩ | ⟨s, _, _, _, hg⟩
    · have hu2 : updateOp cfg now m id updates caller =
          (Except.error (StoreError.sessionNotFound id), m) := by
        unfold updateOp
        rw [hg]
      rw [hu2]; exact hid
    · have hu2 : updateOp cfg now m id updates caller =
          (Except.error (StoreError.sessionNotFound id), mapDelete m id) := by
        unfold updateOp
        rw [hg]
      rw [hu2]; exact hsub id
    · have hu2 : updateOp cfg now m id updates caller =
          (Except.ok (), mapSet m id (applyUpdates s updates now)) := by
        unfold updateOp
        rw [hg]
      rw [hu2]
      intro k s' h
      by_cases hk : k = id
      · subst hk
        rw [mapGet_mapSet_self] at h
        cases h
        refine ⟨s, hms, ?_⟩
        simp [applyUpdates, hu]
      · rw [mapGet_mapSet_ne m id _ hk] at h
        exact ⟨s', h, rfl⟩
    · have hu2 : updateOp cfg now m id updates caller =
          (Except.error (StoreError.userIdMismatch s.id), m) := by
        unfold updateOp
        rw [hg]
      rw [hu2]; exact hid
  · rcases getOp_spec cfg now m id caller with
      ⟨_, hg⟩ | ⟨s, _, _, hg⟩ | ⟨s, hms, _, _, hg⟩ | ⟨s, _, _, _, hg⟩
    · have hd2 : deleteOp cfg now m id caller =
          (Except.error (StoreError.sessionNotFound id), m) := by
        unfold deleteOp
        rw [hg]
      rw [hd2]; exact hid
    · have hd2 : deleteOp cfg now m id caller =
          (Except.error (StoreError.sessionNotFound id), mapDelete m id) := by
        unfold deleteOp
        rw [hg]
      rw [hd2]; exact hsub id
    · have hd2 : deleteOp cfg now m id caller =
          (Except.ok (), mapDelete m id) := by
        unfold deleteOp
        rw [hg]
      rw [hd2]; exact hsub id
    · have hd2 : deleteOp cfg now m id caller =
          (Except.error (StoreError.userIdMismatch s.id), m) := by
        unfold deleteOp
        rw [hg]
      rw [hd2]; exact hid
  · intro k s' h
    unfold existsOp at h
    cases hm : mapGet m id with
    | none =>
        rw [hm] at h
        exact hid k s' h
    | some s =>
        rw [hm] at h
        by_cases he : isExpired cfg now s
        · simp only [he, if_true] at h
          exact hsub id k s' h
        · simp only [he, Bool.false_eq_true, if_false] at h
          exact hid k s' h
  · intro k s' h
    rw [cleanupOp_eq] at h
    have := (mapGet_filter hWF (fun p => !isExpired cfg now p.2) k s').mp h
    exact ⟨s', this.1, rfl⟩

/-- C5 witness: an update that supplies only a scratchpad leaves the
(absent) owner binding of the unowned session unchanged. -/
theorem C5_owner_stability_witness :
    ∃ s0, mapGet mW "a" = some s0 ∧
      (applyUpdates sNoOwner ⟨none, some "x", none, none⟩ 50).userId =
        s0.userId := by
  have h := (C5_owner_stability cfgW 50 mW "a" none
    ⟨none, some "x", none, none⟩ (by decide) rfl).2.1 "a"
    (applyUpdates sNoOwner ⟨none, some "x", none, none⟩ 50) (by decide)
  exact h

/-!
## C4: what count counts
-/

/-- C4 counterexample: `count` is `sessions.size`, which includes
expired-but-unswept records. With `ttlMs = 100` and both records last
touched at 0, at time 201 both are expired, yet `count` still reports 2
while the number of non-expired records is 0. -/
theorem C4_counterexample :
    (countOp mW).1 = 2 ∧
    (mW.filter (fun p => !isExpired cfgW 201 p.2)).length = 0 ∧
    (countOp mW).1 ≠
      (mW.filter (fun p => !isExpired cfgW 201 p.2)).length := by
  exact ⟨rfl, rfl, by decide⟩

/-- C4 (amended): `count` returns the total number of stored records —
the non-expired ones plus the expired-but-not-yet-evicted ones — and it
removes nothing from the store. -/
theorem C4_count_total (cfg : StoreConfig) (now : Int) (m : StoreMap) :
    (countOp m).1 =
      (m.filter (fun p => !isExpired cfg now p.2)).length +
        (m.filter (fun p => isExpired cfg now p.2)).length ∧
    (countOp m).2 = m := by
  have h := length_filter_split m (fun p => !isExpired cfg now p.2)
  simp only [Bool.not_not] at h
  exact ⟨h, rfl⟩

/-!
## C8: sweep removes exactly the expired records and is idempotent
-/

/-- C8: `cleanup` keeps exactly the non-expired records (unchanged), its
return value is the number of records removed, and running it again at the
same instant removes zero records and leaves the store as it was. -/
theorem C8_sweep (cfg : StoreConfig) (now : Int) (m : StoreMap)
    (hWF : StoreMap.WF m) :
    (∀ k s, mapGet (cleanupOp cfg now m).2 k = some s ↔
      (mapGet m k = some s ∧ isExpired cfg now s = false)) ∧
    m.length = (cleanupOp cfg now m).2.length + (cleanupOp cfg now m).1 ∧
    cleanupOp cfg now (cleanupOp cfg now m).2 = (0, (cleanupOp cfg now m).2) := by
  refine ⟨?_, ?_, ?_⟩
  · intro k s
    rw [cleanupOp_eq]
    rw [mapGet_filter hWF (fun p => !isExpired cfg now p.2) k s]
    constructor
    · rintro ⟨h1, h2⟩
      refine ⟨h1, ?_⟩
      by_cases he : isExpired cfg now s
      · rw [he] at h2
        cases h2
      · simpa using he
    · rintro ⟨h1, h2⟩
      exact ⟨h1, by rw [h2]; rfl⟩
  · rw [cleanupOp_eq]
    have h := length_filter_split m (fun p => isExpired cfg now p.2)
    simpa [Nat.add_comm] using h
  · rw [cleanupOp_eq, cleanupOp_eq]
    have h1 : (m.filter (fun p => !isExpired cfg now p.2)).filter
        (fun p => isExpired cfg now p.2) = [] := by
      rw [List.filter_filter]
      have : ∀ p : String × Session,
          (isExpired cfg now p.2 && !isExpired cfg now p.2) = false := by
        intro p
        cases isExpired cfg now p.2 <;> rfl
      calc m.filter (fun p => isExpired cfg now p.2 && !isExpired cfg now p.2)
          = m.filter (fun _ => false) := by
            apply List.filter_congr
            intro p _
            exact this p
        _ = [] := by simp
    have h2 : (m.filter (fun p => !isExpired cfg now p.2)).filter
        (fun p => !isExpired cfg now p.2) =
        m.filter (fun p => !isExpired cfg now p.2) := by
      rw [List.filter_filter]
      apply List.filter_congr
      intro p _
      cases isExpired cfg now p.2 <;> rfl
    rw [h1, h2]
    rfl

/-- C8 witness: sweeping the concrete store at time 201 removes both
expired records, accounts for them in its return value, and a second sweep
is a no-op. -/
theorem C8_sweep_witness :
    mW.length = (cleanupOp cfgW 201 mW).2.length + (cleanupOp cfgW 201 mW).1 ∧
    cleanupOp cfgW 201 (cleanupOp cfgW 201 mW).2 =
      (0, (cleanupOp cfgW 201 mW).2) ∧
    (mapGet (cleanupOp cfgW 100 mW).2 "a" = some sNoOwner ∧
      isExpired cfgW 100 sNoOwner = false) := by
  refine ⟨(C8_sweep cfgW 201 mW (by decide)).2.1,
    (C8_sweep cfgW 201 mW (by decide)).2.2, ?_⟩
  exact ⟨((C8_sweep cfgW 100 mW (by decide)).1 "a" sNoOwner).mpr
    ⟨by decide, by decide⟩, by decide⟩

/-!
## C6: create
-/

/-- C6: a successful `create` returns a fresh session — empty scratchpad,
empty todo list, `createdAt = lastActivity = now`, owner bound exactly to
the supplied identity — whose id matches no live record of the store, and
the new record is inserted under that id; `create` fails only with the
exhaustion error, and does so exactly when all ten successive candidate
ids collide with live records. -/
theorem C6_create (cfg : StoreConfig) (now : Int) (draw : Nat → String)
    (m : StoreMap) (userId : Option String) (hWF : StoreMap.WF m) :
    ((createOp cfg now draw m userId).1 =
        Except.error StoreError.idGenerationExhausted ↔
      ∀ i, i < 10 → liveExists cfg now m (draw i)) ∧
    (∀ e, (createOp cfg now draw m userId).1 = Except.error e →
      e = StoreError.idGenerationExhausted) ∧
    (∀ s, (createOp cfg now draw m userId).1 = Except.ok s →
      s.scratchpad = "" ∧ s.todos = [] ∧ s.createdAt = now ∧
      s.lastModified = now ∧ s.userId = userId ∧
      ¬ liveExists cfg now m s.id ∧
      mapGet (createOp cfg now draw m userId).2 s.id = some s) := by
  obtain ⟨gWF, glive, gerr, giff, gok⟩ :=
    genAux_spec cfg now draw 10 0 m rfl hWF
  cases hg : generateUniqueIdAux cfg now draw 0 m with
  | mk r m2 =>
      cases r with
      | error e =>
          have he : e = StoreError.idGenerationExhausted :=
            gerr e (by rw [hg])
          subst he
          have hc : createOp cfg now draw m userId =
              (Except.error StoreError.idGenerationExhausted, m2) := by
            unfold createOp
            rw [hg]
          rw [hg] at giff
          refine ⟨?_, fun e h => by rw [hc] at h; cases h; rfl, ?_⟩
          · rw [hc]
            simp only [true_iff]
            intro i hi
            exact giff.mp rfl i (Nat.zero_le i) hi
          · intro s h
            rw [hc] at h
            cases h
      | ok idv =>
          have hc : createOp cfg now draw m userId =
              (Except.ok
                ({ id := idv, userId := userId, scratchpad := "",
                   todos := [], createdAt := now, lastModified := now } :
                  Session),
               mapSet m2 idv
                { id := idv, userId := userId, scratchpad := "",
                  todos := [], createdAt := now, lastModified := now }) := by
            unfold createOp
            rw [hg]
          obtain ⟨i, hi0, hi10, hieq, hinolive⟩ := gok idv (by rw [hg])
          refine ⟨?_, ?_, ?_⟩
          · rw [hc]
            constructor
            · intro h
              cases h
            · intro h
              exact absurd (hieq ▸ h i hi10) hinolive
          · intro e h
            rw [hc] at h
            cases h
          · intro s h
            rw [hc] at h
            cases h
            refine ⟨rfl, rfl, rfl, rfl, rfl, ?_, ?_⟩
            · show ¬ liveExists cfg now m idv
              rw [hieq]
              exact hinolive
            · rw [hc]
              exact mapGet_mapSet_self m2 idv _

/-- C6 witness: with a draw stream that always collides with the live
record `"a"`, create exhausts its ten attempts; with a stream whose fourth
candidate is fresh, it succeeds and inserts the expected session. -/
theorem C6_create_witness :
    (createOp cfgW 50 drawColl mW none).1 =
      Except.error StoreError.idGenerationExhausted ∧
    (¬ liveExists cfgW 50 mW sFresh.id ∧
      mapGet (createOp cfgW 50 drawFresh mW (some "u9")).2 sFresh.id =
        some sFresh) := by
  constructor
  · exact (C6_create cfgW 50 drawColl mW none (by decide)).1.mpr (by decide)
  · have hok : (createOp cfgW 50 drawFresh mW (some "u9")).1 =
        Except.ok sFresh := by
      simp [createOp, generateUniqueIdAux, existsOp, mapGet, mapDelete,
        isExpired, cfgW, mW, sNoOwner, sOwned, drawFresh, sFresh]
    have h := (C6_create cfgW 50 drawFresh mW (some "u9") (by decide)).2.2
      sFresh hok
    exact ⟨h.2.2.2.2.2.1, h.2.2.2.2.2.2⟩

/-!
## C9: TONL rendering of the empty list and escaping of free text
-/

/-- C9: the tabular encoder renders the empty todo list distinctly from
every non-empty one; the free-text fields (`title`, `description`) pass
through `escapeValue`, whose output contains no raw tab and no raw newline
and which is lossless (a decoder recovers the original text exactly, so
line-based parsing stays unambiguous). -/
theorem C9_tonl_escaping :
    (∀ todo : Todo, getTodoValues todo "title" =
        escapeValue todo.title.data ∧
      getTodoValues todo "description" = escapeValue todo.description.data) ∧
    (∀ todos : List Todo, todos ≠ [] →
      encodeTodosToTonl todos ≠ encodeTodosToTonl []) ∧
    (∀ v : List Char, '\t' ∉ escapeValue v ∧ '\n' ∉ escapeValue v ∧
      unescapeValue (escapeValue v) = v) := by
  refine ⟨?_, ?_, ?_⟩
  · intro todo
    exact ⟨rfl, rfl⟩
  · intro todos h heq
    exact newline_not_mem_encode_empty
      (heq ▸ newline_mem_encode_nonempty todos h)
  · intro v
    exact ⟨escapeValue_no_tab v, escapeValue_no_newline v,
      unescapeValue_escapeValue v⟩

/-- C9 witness: a todo whose title contains a tab, a newline, a pipe and a
backslash encodes distinctly from the empty list, and its escaped title has
no raw tab or newline yet decodes back to the original. -/
theorem C9_tonl_escaping_witness :
    encodeTodosToTonl [todoW] ≠ encodeTodosToTonl [] ∧
    '\t' ∉ escapeValue todoW.title.data ∧
    '\n' ∉ escapeValue todoW.title.data ∧
    unescapeValue (escapeValue todoW.title.data) = todoW.title.data := by
  refine ⟨C9_tonl_escaping.2.1 [todoW] (by simp), ?_, ?_, ?_⟩
  · exact (C9_tonl_escaping.2.2 todoW.title.data).1
  · exact (C9_tonl_escaping.2.2 todoW.title.data).2.1
  · exact (C9_tonl_escaping.2.2 todoW.title.data).2.2
